import Mathlib

/- Verification development for the shell_gpt_extnd repository.

   The definitions below are a shallow embedding of the Python sources:
     * src/sgpt/handlers/repl_handler.py  (REPL dispatch loop),
     * src/sgpt/batch.py                  (batch processor),
     * src/sgpt/app.py                    (CLI conflict checks).

   The remote completion client is opaque in the source, so it is modelled
   as an arbitrary function from the forwarded prompt to the returned text.
   Side effects (printing, running shell commands, issuing describe
   requests) are recorded as an ordered trace of actions. -/

namespace SgptSpec

/-- Literal sentinel line that opens and closes a multi-line block
(repl_handler.py lines 21, 28, 61, 80). -/
def sentinel : String := "\"\"\""

/-- Name of the shell-command-generator role, DefaultRoles.SHELL.value
(role.py line 170). -/
def shellRoleName : String := "Shell Command Generator"

/-- Name of the describe-shell role, DefaultRoles.DESCRIBE_SHELL.value
(role.py line 171). -/
def describeShellRoleName : String := "Shell Command Descriptor"

/-- Result of reading lines for a multi-line block from a finite line
source.  In `_testmode_get_multiline_input` (repl_handler.py 25-32) the
source is the list of remaining init lines, accessed by index: running
out of lines there raises IndexError, modelled as `exhausted`.  In
`_get_multiline_input` (repl_handler.py 18-23) the source is interactive
input, where running out of the finitely many lines supplied to the model
means the loop blocks waiting for more input, also the `exhausted` case. -/
inductive MLResult where
  | closed (buf : String) (rest : List String)
  | exhausted (buf : String)
  deriving DecidableEq

/-- Shared body of `_get_multiline_input` and `_testmode_get_multiline_input`
(repl_handler.py 18-32): keep consuming lines, appending each plus a
newline to the buffer, until the sentinel line is met; return the buffer
and the unconsumed suffix of the source. -/
def get_multiline_input : List String → String → MLResult
  | [], acc => .exhausted acc
  | l :: ls, acc =>
    if l = sentinel then .closed acc ls
    else get_multiline_input ls (acc ++ l ++ "\n")

/-- Observable dispatch actions of the REPL loop.  `forward` records the
prompt sent to `super().handle` and the completion it returned (which
becomes the new full_completion); `shell_execute` records the command
passed to `run_command`; `shell_describe` records the role and the prompt
passed to the one-shot DefaultHandler (repl_handler.py 65-75, 87-97). -/
inductive Action where
  | forward (prompt completion : String)
  | shell_execute (command : String)
  | shell_describe (roleName prompt : String)
  deriving DecidableEq

/-- Outcome of consuming the pre-supplied init block
(repl_handler.py 54-76): `ok` carries the final full_completion and the
trace when the block is fully consumed, `exited` means the literal
exit() line raised typer.Exit, `crashed` means
`_testmode_get_multiline_input` ran past the end of the init lines
(IndexError in Python). -/
inductive InitResult where
  | ok (fc : String) (actions : List Action)
  | exited (actions : List Action)
  | crashed (actions : List Action)
  deriving DecidableEq

/-- Record one action in front of the trace of an init-phase outcome. -/
def consInit (a : Action) : InitResult → InitResult
  | .ok fc as => .ok fc (a :: as)
  | .exited as => .exited (a :: as)
  | .crashed as => .crashed (a :: as)

/-- Record a list of earlier actions in front of an init-phase outcome. -/
def prependInit (xs : List Action) : InitResult → InitResult
  | .ok fc as => .ok fc (xs ++ as)
  | .exited as => .exited (xs ++ as)
  | .crashed as => .crashed (xs ++ as)

/-- Helper fact required by the termination argument of the loop
definitions below: when the multi-line reader closes, the unconsumed
suffix is strictly shorter than its input (the closing sentinel line is
consumed). -/
theorem get_multiline_input_closed_length :
    ∀ (ls : List String) (acc buf : String) (rest : List String),
      get_multiline_input ls acc = .closed buf rest → rest.length < ls.length := by
  intro ls
  induction ls with
  | nil => intro acc buf rest h; simp [get_multiline_input] at h
  | cons l ls ih =>
    intro acc buf rest h
    by_cases hl : l = sentinel
    · simp [get_multiline_input, hl] at h
      simp [h.2.symm, List.length_cons, Nat.lt_succ_self]
    · simp [get_multiline_input, hl] at h
      exact Nat.lt_trans (ih _ _ _ h) (Nat.lt_succ_self _)

/-- Embedding of the init-block half of ReplHandler.handle
(repl_handler.py 54-76).  `c` is the opaque completion client
(`super().handle` as a function of the prompt), `r` is the active role
name (`self.role.name`), `fc` is the current full_completion.  Each
line is dispatched through the same chain as the source: sentinel opens
multi-line accumulation, the literal exit() raises typer.Exit, the
literals e and d are shell-execute and shell-describe when the active
role is the shell-command role, and anything else is forwarded, updating
full_completion with the returned completion. -/
def processInit (c : String → String) (r : String) (ls : List String)
    (fc : String) : InitResult :=
  match ls with
  | [] => .ok fc []
  | l :: rest =>
    if l = sentinel then
      match hml : get_multiline_input rest "" with
      | .exhausted _ => .crashed []
      | .closed p rest' =>
        if p = "exit()" then .exited []
        else if r = shellRoleName ∧ p = "e" then
          consInit (.shell_execute fc) (processInit c r rest' fc)
        else if r = shellRoleName ∧ p = "d" then
          consInit (.shell_describe describeShellRoleName fc) (processInit c r rest' fc)
        else
          consInit (.forward p (c p)) (processInit c r rest' (c p))
    else
      if l = "exit()" then .exited []
      else if r = shellRoleName ∧ l = "e" then
        consInit (.shell_execute fc) (processInit c r rest fc)
      else if r = shellRoleName ∧ l = "d" then
        consInit (.shell_describe describeShellRoleName fc) (processInit c r rest fc)
      else
        consInit (.forward l (c l)) (processInit c r rest (c l))
termination_by ls.length
decreasing_by
  all_goals simp only [List.length_cons]
  · exact Nat.lt_trans (get_multiline_input_closed_length _ _ _ _ hml) (Nat.lt_succ_self _)
  · exact Nat.lt_trans (get_multiline_input_closed_length _ _ _ _ hml) (Nat.lt_succ_self _)
  · exact Nat.lt_trans (get_multiline_input_closed_length _ _ _ _ hml) (Nat.lt_succ_self _)
  · exact Nat.lt_succ_self _
  · exact Nat.lt_succ_self _
  · exact Nat.lt_succ_self _

/-- Outcome of the interactive half of the REPL loop
(repl_handler.py 77-97) on a finite list of virtual interactive lines:
`exited` means exit() raised typer.Exit, `needLine` means every supplied
line was consumed and the loop is blocked at the top-of-loop prompt with
the given full_completion, `needAccum` means the supplied lines ran out
inside `_get_multiline_input`, blocked with the given partial buffer. -/
inductive InterResult where
  | exited (actions : List Action)
  | needLine (fc : String) (actions : List Action)
  | needAccum (buf fc : String) (actions : List Action)
  deriving DecidableEq

/-- Record one action in front of the trace of an interactive outcome. -/
def consInter (a : Action) : InterResult → InterResult
  | .exited as => .exited (a :: as)
  | .needLine fc as => .needLine fc (a :: as)
  | .needAccum buf fc as => .needAccum buf fc (a :: as)

/-- Record a list of earlier actions in front of an interactive outcome. -/
def prependInter (xs : List Action) : InterResult → InterResult
  | .exited as => .exited (xs ++ as)
  | .needLine fc as => .needLine fc (xs ++ as)
  | .needAccum buf fc as => .needAccum buf fc (xs ++ as)

/-- Embedding of the interactive half of ReplHandler.handle
(repl_handler.py 77-97), driven by a finite list of interactive lines.
The dispatch chain is identical to the init-block half; the mid-loop
`if init_prompt:` branch at lines 84-86 is unreachable because
init_prompt is always the empty string there (set at line 76, or falsy
from the start), so it does not appear. -/
def processInteractive (c : String → String) (r : String) (ls : List String)
    (fc : String) : InterResult :=
  match ls with
  | [] => .needLine fc []
  | l :: rest =>
    if l = sentinel then
      match hml : get_multiline_input rest "" with
      | .exhausted buf => .needAccum buf fc []
      | .closed p rest' =>
        if p = "exit()" then .exited []
        else if r = shellRoleName ∧ p = "e" then
          consInter (.shell_execute fc) (processInteractive c r rest' fc)
        else if r = shellRoleName ∧ p = "d" then
          consInter (.shell_describe describeShellRoleName fc) (processInteractive c r rest' fc)
        else
          consInter (.forward p (c p)) (processInteractive c r rest' (c p))
    else
      if l = "exit()" then .exited []
      else if r = shellRoleName ∧ l = "e" then
        consInter (.shell_execute fc) (processInteractive c r rest fc)
      else if r = shellRoleName ∧ l = "d" then
        consInter (.shell_describe describeShellRoleName fc) (processInteractive c r rest fc)
      else
        consInter (.forward l (c l)) (processInteractive c r rest (c l))
termination_by ls.length
decreasing_by
  all_goals simp only [List.length_cons]
  · exact Nat.lt_trans (get_multiline_input_closed_length _ _ _ _ hml) (Nat.lt_succ_self _)
  · exact Nat.lt_trans (get_multiline_input_closed_length _ _ _ _ hml) (Nat.lt_succ_self _)
  · exact Nat.lt_trans (get_multiline_input_closed_length _ _ _ _ hml) (Nat.lt_succ_self _)
  · exact Nat.lt_succ_self _
  · exact Nat.lt_succ_self _
  · exact Nat.lt_succ_self _

/-- Overall outcome of one run of ReplHandler.handle on a pre-supplied
block of init lines followed by a finite list of interactive lines. -/
inductive ReplResult where
  | exited (actions : List Action)
  | crashed (actions : List Action)
  | needLine (fc : String) (actions : List Action)
  | needAccum (buf fc : String) (actions : List Action)
  deriving DecidableEq

/-- Embedding of ReplHandler.handle (repl_handler.py 34-97):
full_completion starts as the empty string (line 49), the init block is
consumed first (an empty list of init lines matches the skipped
`if init_prompt:` branch), and only if it completes normally does the
loop move on to the interactive source with the carried-over
full_completion. -/
def repl (c : String → String) (r : String)
    (initLines interLines : List String) : ReplResult :=
  match processInit c r initLines "" with
  | .exited as => .exited as
  | .crashed as => .crashed as
  | .ok fc as =>
    match processInteractive c r interLines fc with
    | .exited bs => .exited (as ++ bs)
    | .needLine fc' bs => .needLine fc' (as ++ bs)
    | .needAccum buf fc' bs => .needAccum buf fc' (as ++ bs)

/-- Dispatch chain of the init-block half (repl_handler.py 63-75) on an
effective line content `p` (a raw line or a closed multi-line buffer),
factored out so that the loop can be described by simple equations.  It
is definitionally the body that `processInit` executes after resolving
multi-line accumulation. -/
def dispatchInit (c : String → String) (r : String) (p : String)
    (rest : List String) (fc : String) : InitResult :=
  if p = "exit()" then .exited []
  else if r = shellRoleName ∧ p = "e" then
    consInit (.shell_execute fc) (processInit c r rest fc)
  else if r = shellRoleName ∧ p = "d" then
    consInit (.shell_describe describeShellRoleName fc) (processInit c r rest fc)
  else
    consInit (.forward p (c p)) (processInit c r rest (c p))

/-- Dispatch chain of the interactive half (repl_handler.py 82-97),
factored out in the same way. -/
def dispatchInter (c : String → String) (r : String) (p : String)
    (rest : List String) (fc : String) : InterResult :=
  if p = "exit()" then .exited []
  else if r = shellRoleName ∧ p = "e" then
    consInter (.shell_execute fc) (processInteractive c r rest fc)
  else if r = shellRoleName ∧ p = "d" then
    consInter (.shell_describe describeShellRoleName fc) (processInteractive c r rest fc)
  else
    consInter (.forward p (c p)) (processInteractive c r rest (c p))

/-- Sequencing combinator used to state how the init phase composes
with what follows: a completed block hands its final full_completion to
the continuation, while exit and crash cut it off.  The crashed case
does not correspond to running further lines and is a pass-through
placeholder (composition theorems exclude it). -/
def seqInit (R : InitResult) (k : String → InitResult) : InitResult :=
  match R with
  | .ok fc as => prependInit as (k fc)
  | .exited as => .exited as
  | .crashed as => .crashed as

/-- Sequencing combinator for the interactive phase: an exhausted
top-of-loop state hands its full_completion to the continuation, exit
cuts it off, and the blocked-mid-accumulation state is a pass-through
placeholder (composition theorems exclude it). -/
def seqInter (R : InterResult) (k : String → InterResult) : InterResult :=
  match R with
  | .exited as => .exited as
  | .needLine fc as => prependInter as (k fc)
  | .needAccum buf fc as => .needAccum buf fc as

/- Batch processor embedding (src/sgpt/batch.py). -/

/-- Record appended by BatchProcessor.add_result (batch.py 104-117).
The timestamp field is omitted: it reads the wall clock, which is
outside the embedded state.  The error field stores `error or ""`, so a
missing error and an empty error string are both stored as "". -/
structure BatchResult where
  question : String
  answer : String
  error : String
  deriving DecidableEq

/-- Embedding of BatchProcessor.add_result (batch.py 104-117). -/
def add_result (results : List BatchResult) (question answer : String)
    (error : Option String) : List BatchResult :=
  results ++ [⟨question, answer, error.getD ""⟩]

/-- Embedding of process_batch_questions (batch.py 226-271).  The handler
is modelled as a function from the question to either the answer or the
string representation of the raised exception.  Both the progress-bar
branch and the plain branch run the identical try/except body per
question, so one fold covers both. -/
def process_batch_questions (handler : String → Except String String)
    (questions : List String) : List BatchResult :=
  questions.foldl
    (fun results q =>
      match handler q with
      | .ok answer => add_result results q answer none
      | .error e => add_result results q "" (some e))
    []

/-- Count of results whose error field is falsy, the expression
`sum(1 for r in self.results if not r[ error ])` used by print_summary
and all three save formats (batch.py 144, 172, 188, 212). -/
def countSuccess (results : List BatchResult) : Nat :=
  (results.filter (fun r => r.error = "")).length

/-- Count of results whose error field is truthy (batch.py 145, 173,
189, 213). -/
def countFailed (results : List BatchResult) : Nat :=
  (results.filter (fun r => r.error ≠ "")).length

/-- Counts printed by BatchProcessor.print_summary (batch.py 209-216):
total, success, failed. -/
def print_summary (results : List BatchResult) : Nat × Nat × Nat :=
  (results.length, countSuccess results, countFailed results)

/-- Counts written in the header of _save_as_txt (batch.py 143-145). -/
def save_as_txt_counts (results : List BatchResult) : Nat × Nat × Nat :=
  (results.length, countSuccess results, countFailed results)

/-- Counts written in the metadata object of _save_as_json
(batch.py 171-173). -/
def save_as_json_counts (results : List BatchResult) : Nat × Nat × Nat :=
  (results.length, countSuccess results, countFailed results)

/-- Counts written in the header of _save_as_markdown
(batch.py 187-189). -/
def save_as_markdown_counts (results : List BatchResult) : Nat × Nat × Nat :=
  (results.length, countSuccess results, countFailed results)

/- Batch file reader embedding (batch.py 30-102). -/

/-- Parsed JSON value as produced by json.load in _read_json. -/
inductive JsonVal where
  | str (s : String)
  | num (n : Int)
  | bool (b : Bool)
  | null
  | obj (fields : List (String × JsonVal))
  | arr (items : List JsonVal)

/-- Membership and indexing of a JSON object, modelling the dict
operations `key in data` and `data[key]` (keys of a parsed JSON dict
are unique, so first match suffices). -/
def lookupField (fields : List (String × JsonVal)) (key : String) : Option JsonVal :=
  match fields with
  | [] => none
  | (k, v) :: rest => if k = key then some v else lookupField rest key

/-- Test `isinstance(item, str)` on a parsed JSON value. -/
def JsonVal.isStr : JsonVal → Bool
  | .str _ => true
  | _ => false

/-- Test `isinstance(item, dict) and "question" in item` (batch.py 85). -/
def JsonVal.hasQuestionKey : JsonVal → Bool
  | .obj fields => (lookupField fields "question").isSome
  | _ => false

/-- The value `item["question"]` of a record that passed
`hasQuestionKey`; `null` is an unreachable placeholder for the guarded
callers. -/
def JsonVal.questionField : JsonVal → JsonVal
  | .obj fields => (lookupField fields "question").getD .null
  | _ => .null

/-- Embedding of BatchProcessor._read_txt (batch.py 60-72) on the list
of lines of the file: strip each line, keep it when it is non-empty and
does not start with the comment marker. -/
def read_txt : List String → List String
  | [] => []
  | l :: ls =>
    let t := l.trim
    if t ≠ "" ∧ ¬ t.startsWith "#" then t :: read_txt ls else read_txt ls

/-- Error message raised by _read_json on an unrecognised shape
(batch.py 88). -/
def jsonFormatErrorMsg : String :=
  "JSON格式不正确，应为 \x7b\"questions\": [...]\x7d 或 [\x7b\"question\": \"...\"\x7d, ...]"

/-- Embedding of BatchProcessor._read_json (batch.py 74-88) on the
parsed JSON value.  Note the dict branch returns `data["questions"]`
without validating it, so the result type is the raw JSON value. -/
def read_json (data : JsonVal) : Except String JsonVal :=
  match data with
  | .obj fields =>
    match lookupField fields "questions" with
    | some v => .ok v
    | none => .error jsonFormatErrorMsg
  | .arr items =>
    if items.all JsonVal.isStr then .ok (.arr items)
    else if items.all JsonVal.hasQuestionKey then
      .ok (.arr (items.map JsonVal.questionField))
    else .error jsonFormatErrorMsg
  | _ => .error jsonFormatErrorMsg

/-- Embedding of BatchProcessor._read_csv (batch.py 90-102) on the list
of parsed rows: `next(reader, None)` drops the header row, then the
stripped first column of each row with a truthy first column is kept. -/
def read_csv_rows : List (List String) → List String
  | [] => []
  | row :: rs =>
    match row with
    | [] => read_csv_rows rs
    | c :: _ =>
      if c.trim ≠ "" then c.trim :: read_csv_rows rs else read_csv_rows rs

/-- Embedding of the whole CSV reader including the header skip. -/
def read_csv (rows : List (List String)) : List String :=
  read_csv_rows (rows.drop 1)

/-- Input of read_questions_from_file: the file suffix decides the
reader, and the payload is the already-decoded content handed to it
(lines for the text readers, rows for csv, the parsed value for json;
an unknown suffix falls back to the text reader, batch.py 54-56). -/
inductive BatchFile where
  | txt (lines : List String)
  | json (data : JsonVal)
  | csv (rows : List (List String))
  | otherSuffix (lines : List String)

/-- Wrapper message of read_questions_from_file (batch.py 58): any
reader failure is re-raised as the generic malformed-input ValueError. -/
def readFileError (e : String) : String := "读取文件失败: " ++ e

/-- Embedding of BatchProcessor.read_questions_from_file
(batch.py 30-58).  Text and csv results are lists of strings, while the
json reader may hand back an arbitrary value, so the common result type
is a JSON value (string lists are injected with JsonVal.str). -/
def read_questions_from_file (f : BatchFile) : Except String JsonVal :=
  match f with
  | .txt lines => .ok (.arr ((read_txt lines).map JsonVal.str))
  | .json data =>
    match read_json data with
    | .ok v => .ok v
    | .error e => .error (readFileError e)
  | .csv rows => .ok (.arr ((read_csv rows).map JsonVal.str))
  | .otherSuffix lines => .ok (.arr ((read_txt lines).map JsonVal.str))

/- CLI flag-conflict embedding (src/sgpt/app.py, main). -/

/-- CLI flags of main relevant to mode conflicts.  Options are truthy
Python values: a string option is modelled by whether it was supplied.
All remaining options (deletion commands, show_chat, callbacks) act
before or orthogonally to the modelled region and are at their
defaults. -/
structure Flags where
  shell : Bool := false
  describe_shell : Bool := false
  code : Bool := false
  chat : Bool := false
  repl : Bool := false
  editor : Bool := false
  stdin_passed : Bool := false
  batch : Bool := false
  batch_file_exists : Bool := false
  deriving DecidableEq

/-- Outcome of the dispatch-decision region of main (app.py 311-432):
either a BadArgumentUsage is raised before any completion request
(usageError), or the batch branch runs process_batch_questions
(batchRun), or control reaches the single-shot/chat/repl dispatch
(normalRun). -/
inductive MainOutcome where
  | usageError (message : String)
  | batchRun
  | normalRun
  deriving DecidableEq

/-- Message of the missing-batch-file BadArgumentUsage (app.py 321). -/
def batchMissingMsg : String := "批量处理文件不存在"

/-- Message of the batch/chat/repl conflict BadArgumentUsage
(app.py 325). -/
def batchConflictMsg : String := "--batch 不能与 --chat 或 --repl 一起使用"

/-- Message of the multiple-mode BadArgumentUsage (app.py 378-380). -/
def modesConflictMsg : String :=
  "Only one of --shell, --describe-shell, and --code options can be used at a time."

/-- Message of the chat/repl conflict BadArgumentUsage (app.py 383). -/
def chatReplConflictMsg : String :=
  "--chat and --repl options cannot be used together."

/-- Message of the editor/stdin BadArgumentUsage (app.py 386). -/
def editorStdinMsg : String :=
  "--editor option cannot be used with stdin input."

/-- The Python expression `sum((shell, describe_shell, code))`
(app.py 377). -/
def modeCount (f : Flags) : Nat :=
  (if f.shell then 1 else 0) + (if f.describe_shell then 1 else 0)
    + (if f.code then 1 else 0)

/-- Embedding of the dispatch-decision region of main (app.py 311-432),
in source order: the batch branch runs first and checks only the file's
existence and the chat/repl conflict before dispatching completions;
the multiple-mode check, the chat-with-repl check and the editor/stdin
check run only on the non-batch path. -/
def main (f : Flags) : MainOutcome :=
  if f.batch then
    if ¬ f.batch_file_exists then .usageError batchMissingMsg
    else if f.chat ∨ f.repl then .usageError batchConflictMsg
    else .batchRun
  else if modeCount f > 1 then .usageError modesConflictMsg
  else if f.chat ∧ f.repl then .usageError chatReplConflictMsg
  else if f.editor ∧ f.stdin_passed then .usageError editorStdinMsg
  else .normalRun

/-- Whether an outcome is a reported usage error (BadArgumentUsage:
printed to the user, process exit code non-zero, nothing dispatched). -/
def isUsageError : MainOutcome → Bool
  | .usageError _ => true
  | _ => false

/- Helper lemmas about the REPL embedding. -/

/-- Prepending no actions changes nothing (init outcomes). -/
@[simp] theorem prependInit_nil (R : InitResult) : prependInit [] R = R := by
  cases R <;> simp [prependInit]

/-- Folding one action into a prepended init outcome. -/
@[simp] theorem consInit_prependInit (a : Action) (xs : List Action) (R : InitResult) :
    consInit a (prependInit xs R) = prependInit (a :: xs) R := by
  cases R <;> simp [consInit, prependInit]

/-- Prepending no actions changes nothing (interactive outcomes). -/
@[simp] theorem prependInter_nil (R : InterResult) : prependInter [] R = R := by
  cases R <;> simp [prependInter]

/-- Folding one action into a prepended interactive outcome. -/
@[simp] theorem consInter_prependInter (a : Action) (xs : List Action) (R : InterResult) :
    consInter a (prependInter xs R) = prependInter (a :: xs) R := by
  cases R <;> simp [consInter, prependInter]

/-- Unfolding equation of processInit on the empty block. -/
theorem processInit_nil (c : String → String) (r : String) (fc : String) :
    processInit c r [] fc = .ok fc [] := by
  rw [processInit.eq_def]

/-- Unfolding equation of processInit when a sentinel opens and the rest
of the block never closes it: the IndexError case. -/
theorem processInit_sentinel_exhausted (c : String → String) (r : String)
    (rest : List String) (buf : String) (fc : String)
    (h : get_multiline_input rest "" = .exhausted buf) :
    processInit c r (sentinel :: rest) fc = .crashed [] := by
  rw [processInit.eq_def]
  dsimp only
  rw [if_pos rfl]
  split
  · rfl
  · next p2 rest2 heq => rw [h] at heq; cases heq

/-- Unfolding equation of processInit when a sentinel opens and the
multi-line reader closes with buffer `p`. -/
theorem processInit_sentinel_closed (c : String → String) (r : String)
    (rest : List String) (p : String) (rest' : List String) (fc : String)
    (h : get_multiline_input rest "" = .closed p rest') :
    processInit c r (sentinel :: rest) fc = dispatchInit c r p rest' fc := by
  rw [processInit.eq_def]
  dsimp only
  rw [if_pos rfl]
  split
  · next buf heq => rw [h] at heq; cases heq
  · next p2 rest2 heq => rw [h] at heq; cases heq; rfl

/-- Unfolding equation of processInit on a non-sentinel line. -/
theorem processInit_cons (c : String → String) (r : String) (l : String)
    (rest : List String) (fc : String) (hs : ¬ l = sentinel) :
    processInit c r (l :: rest) fc = dispatchInit c r l rest fc := by
  rw [processInit.eq_def]
  dsimp only
  rw [if_neg hs]
  rfl

/-- Unfolding equation of processInteractive on an exhausted source. -/
theorem processInteractive_nil (c : String → String) (r : String) (fc : String) :
    processInteractive c r [] fc = .needLine fc [] := by
  rw [processInteractive.eq_def]

/-- Unfolding equation of processInteractive when a sentinel opens and
the remaining supplied lines never close it: the loop blocks inside
multi-line accumulation. -/
theorem processInteractive_sentinel_exhausted (c : String → String) (r : String)
    (rest : List String) (buf : String) (fc : String)
    (h : get_multiline_input rest "" = .exhausted buf) :
    processInteractive c r (sentinel :: rest) fc = .needAccum buf fc [] := by
  rw [processInteractive.eq_def]
  dsimp only
  rw [if_pos rfl]
  split
  · next buf2 heq => rw [h] at heq; cases heq; rfl
  · next p2 rest2 heq => rw [h] at heq; cases heq

/-- Unfolding equation of processInteractive when a sentinel opens and
the multi-line reader closes with buffer `p`. -/
theorem processInteractive_sentinel_closed (c : String → String) (r : String)
    (rest : List String) (p : String) (rest' : List String) (fc : String)
    (h : get_multiline_input rest "" = .closed p rest') :
    processInteractive c r (sentinel :: rest) fc = dispatchInter c r p rest' fc := by
  rw [processInteractive.eq_def]
  dsimp only
  rw [if_pos rfl]
  split
  · next buf heq => rw [h] at heq; cases heq
  · next p2 rest2 heq => rw [h] at heq; cases heq; rfl

/-- Unfolding equation of processInteractive on a non-sentinel line. -/
theorem processInteractive_cons (c : String → String) (r : String) (l : String)
    (rest : List String) (fc : String) (hs : ¬ l = sentinel) :
    processInteractive c r (l :: rest) fc = dispatchInter c r l rest fc := by
  rw [processInteractive.eq_def]
  dsimp only
  rw [if_neg hs]
  rfl

/-- Appending further lines after a closing sentinel does not change the
closed buffer, only the unconsumed suffix. -/
theorem get_multiline_input_append_closed :
    ∀ (xs : List String) (acc p : String) (rest ys : List String),
      get_multiline_input xs acc = .closed p rest →
      get_multiline_input (xs ++ ys) acc = .closed p (rest ++ ys) := by
  intro xs
  induction xs with
  | nil => intro acc p rest ys h; simp [get_multiline_input] at h
  | cons l ls ih =>
    intro acc p rest ys h
    by_cases hl : l = sentinel
    · simp [get_multiline_input, hl] at h ⊢
      exact ⟨h.1, by rw [h.2]⟩
    · simp [get_multiline_input, hl] at h ⊢
      exact ih _ _ _ _ h

/-- If the source runs out during accumulation, appending more lines
resumes the very same accumulation on them. -/
theorem get_multiline_input_append_exhausted :
    ∀ (xs : List String) (acc buf : String) (ys : List String),
      get_multiline_input xs acc = .exhausted buf →
      get_multiline_input (xs ++ ys) acc = get_multiline_input ys buf := by
  intro xs
  induction xs with
  | nil =>
    intro acc buf ys h
    simp [get_multiline_input] at h
    rw [List.nil_append, h]
  | cons l ls ih =>
    intro acc buf ys h
    by_cases hl : l = sentinel
    · simp [get_multiline_input, hl] at h
    · simp [get_multiline_input, hl] at h ⊢
      exact ih _ _ _ h

/-- A line source that never contains the sentinel exhausts the
multi-line reader. -/
theorem get_multiline_input_no_sentinel :
    ∀ (xs : List String) (acc : String), sentinel ∉ xs →
      ∃ buf, get_multiline_input xs acc = .exhausted buf := by
  intro xs
  induction xs with
  | nil => intro acc _; exact ⟨acc, rfl⟩
  | cons l ls ih =>
    intro acc hmem
    have hl : l ≠ sentinel := fun h => hmem (h ▸ List.mem_cons_self l ls)
    have hls : sentinel ∉ ls := fun h => hmem (List.mem_cons_of_mem _ h)
    simp [get_multiline_input, hl]
    exact ih _ hls

/-- Shape of a closed multi-line buffer: it is the starting accumulator
or it ends with a newline (each accumulated line contributes one). -/
theorem get_multiline_input_closed_shape :
    ∀ (xs : List String) (acc p : String) (rest : List String),
      get_multiline_input xs acc = .closed p rest →
      p = acc ∨ ∃ q, p = q ++ "\n" := by
  intro xs
  induction xs with
  | nil => intro acc p rest h; simp [get_multiline_input] at h
  | cons l ls ih =>
    intro acc p rest h
    by_cases hl : l = sentinel
    · simp [get_multiline_input, hl] at h
      exact Or.inl h.1.symm
    · simp [get_multiline_input, hl] at h
      rcases ih _ _ _ h with heq | hex
      · exact Or.inr ⟨acc ++ l, heq⟩
      · exact Or.inr hex

/-- A string that ends in a newline differs from any string whose last
character is not a newline. -/
theorem append_newline_ne (q s : String)
    (hs : s.data.getLast? ≠ some (Char.ofNat 10)) : q ++ "\n" ≠ s := by
  intro h
  apply hs
  rw [← h]
  have hdata : (q ++ "\n").data = q.data ++ [Char.ofNat 10] := by
    simp [String.data_append]
  rw [hdata, List.getLast?_concat]

/-- One action commutes with the init sequencing combinator. -/
theorem consInit_seqInit (a : Action) (R : InitResult) (k : String → InitResult) :
    consInit a (seqInit R k) = seqInit (consInit a R) k := by
  cases R with
  | ok fc as => cases hk : k fc <;> simp [consInit, seqInit, prependInit, hk]
  | exited as => rfl
  | crashed as => rfl

/-- One action commutes with the interactive sequencing combinator. -/
theorem consInter_seqInter (a : Action) (R : InterResult) (k : String → InterResult) :
    consInter a (seqInter R k) = seqInter (consInter a R) k := by
  cases R with
  | exited as => rfl
  | needLine fc as => cases hk : k fc <;> simp [consInter, seqInter, prependInter, hk]
  | needAccum buf fc as => rfl

/-- Composition of the init dispatch chain with extra trailing lines,
assuming composition already holds for the lines it continues with. -/
theorem dispatchInit_append (c : String → String) (r : String) (ys : List String)
    (p : String) (rest : List String) (fc : String)
    (IH : ∀ fcx, (∀ as, processInit c r rest fcx ≠ .crashed as) →
      processInit c r (rest ++ ys) fcx
        = seqInit (processInit c r rest fcx) (fun f => processInit c r ys f))
    (hdis : ∀ as, dispatchInit c r p rest fc ≠ .crashed as) :
    dispatchInit c r p (rest ++ ys) fc
      = seqInit (dispatchInit c r p rest fc) (fun f => processInit c r ys f) := by
  unfold dispatchInit at hdis ⊢
  by_cases hx : p = "exit()"
  · simp only [if_pos hx]
    rfl
  · simp only [if_neg hx] at hdis ⊢
    by_cases he : r = shellRoleName ∧ p = "e"
    · simp only [if_pos he] at hdis ⊢
      have hnc : ∀ as, processInit c r rest fc ≠ .crashed as := by
        intro as hcr
        exact hdis (Action.shell_execute fc :: as) (by rw [hcr]; rfl)
      rw [IH fc hnc, consInit_seqInit]
    · simp only [if_neg he] at hdis ⊢
      by_cases hd : r = shellRoleName ∧ p = "d"
      · simp only [if_pos hd] at hdis ⊢
        have hnc : ∀ as, processInit c r rest fc ≠ .crashed as := by
          intro as hcr
          exact hdis (Action.shell_describe describeShellRoleName fc :: as)
            (by rw [hcr]; rfl)
        rw [IH fc hnc, consInit_seqInit]
      · simp only [if_neg hd] at hdis ⊢
        have hnc : ∀ as, processInit c r rest (c p) ≠ .crashed as := by
          intro as hcr
          exact hdis (Action.forward p (c p) :: as) (by rw [hcr]; rfl)
        rw [IH (c p) hnc, consInit_seqInit]

/-- Composition of the init phase: processing a block followed by more
lines equals processing the block and sequencing, provided the block
does not crash inside an unclosed multi-line group. -/
theorem processInit_append (c : String → String) (r : String) :
    ∀ (xs : List String) (fc : String) (ys : List String),
      (∀ as, processInit c r xs fc ≠ .crashed as) →
      processInit c r (xs ++ ys) fc
        = seqInit (processInit c r xs fc) (fun f => processInit c r ys f) := by
  suffices H : ∀ (n : Nat) (xs : List String) (fc : String) (ys : List String),
      xs.length ≤ n → (∀ as, processInit c r xs fc ≠ .crashed as) →
      processInit c r (xs ++ ys) fc
        = seqInit (processInit c r xs fc) (fun f => processInit c r ys f) by
    exact fun xs fc ys h => H xs.length xs fc ys le_rfl h
  intro n
  induction n with
  | zero =>
    intro xs fc ys hlen _
    have hxs : xs = [] := List.eq_nil_of_length_eq_zero (Nat.le_zero.mp hlen)
    subst hxs
    rw [List.nil_append, processInit_nil, seqInit, prependInit_nil]
  | succ n ihn =>
    intro xs fc ys hlen hnc
    match xs with
    | [] => rw [List.nil_append, processInit_nil, seqInit, prependInit_nil]
    | l :: rest =>
      have hrest : rest.length ≤ n := Nat.lt_succ_iff.mp (by
        simpa using Nat.lt_of_lt_of_le (Nat.lt_succ_self rest.length)
          (by simpa using hlen))
      by_cases hl : l = sentinel
      · subst hl
        cases hml : get_multiline_input rest "" with
        | exhausted buf =>
          exact absurd (processInit_sentinel_exhausted c r rest buf fc hml)
            (fun h => hnc [] h)
        | closed p rest' =>
          have hml2 := get_multiline_input_append_closed rest "" p rest' ys hml
          have hcons : (sentinel :: rest) ++ ys = sentinel :: (rest ++ ys) := rfl
          rw [hcons, processInit_sentinel_closed c r (rest ++ ys) p (rest' ++ ys) fc hml2,
            processInit_sentinel_closed c r rest p rest' fc hml]
          have hlt : rest'.length ≤ n :=
            Nat.le_of_lt (Nat.lt_of_lt_of_le
              (get_multiline_input_closed_length rest "" p rest' hml) hrest)
          refine dispatchInit_append c r ys p rest' fc
            (fun fcx hncx => ihn rest' fcx ys hlt hncx) ?_
          intro as hcr
          exact hnc as
            (by rw [processInit_sentinel_closed c r rest p rest' fc hml]; exact hcr)
      · have hcons : (l :: rest) ++ ys = l :: (rest ++ ys) := rfl
        rw [hcons, processInit_cons c r l (rest ++ ys) fc hl,
          processInit_cons c r l rest fc hl]
        refine dispatchInit_append c r ys l rest fc
          (fun fcx hncx => ihn rest fcx ys hrest hncx) ?_
        intro as hcr
        exact hnc as (by rw [processInit_cons c r l rest fc hl]; exact hcr)

/-- Composition of the interactive dispatch chain with extra trailing
lines, assuming composition already holds for the lines it continues
with. -/
theorem dispatchInter_append (c : String → String) (r : String) (ys : List String)
    (p : String) (rest : List String) (fc : String)
    (IH : ∀ fcx, (∀ buf f as, processInteractive c r rest fcx ≠ .needAccum buf f as) →
      processInteractive c r (rest ++ ys) fcx
        = seqInter (processInteractive c r rest fcx) (fun f => processInteractive c r ys f))
    (hdis : ∀ buf f as, dispatchInter c r p rest fc ≠ .needAccum buf f as) :
    dispatchInter c r p (rest ++ ys) fc
      = seqInter (dispatchInter c r p rest fc) (fun f => processInteractive c r ys f) := by
  unfold dispatchInter at hdis ⊢
  by_cases hx : p = "exit()"
  · simp only [if_pos hx]
    rfl
  · simp only [if_neg hx] at hdis ⊢
    by_cases he : r = shellRoleName ∧ p = "e"
    · simp only [if_pos he] at hdis ⊢
      have hnc : ∀ buf f as, processInteractive c r rest fc ≠ .needAccum buf f as := by
        intro buf f as hcr
        exact hdis buf f (Action.shell_execute fc :: as) (by rw [hcr]; rfl)
      rw [IH fc hnc, consInter_seqInter]
    · simp only [if_neg he] at hdis ⊢
      by_cases hd : r = shellRoleName ∧ p = "d"
      · simp only [if_pos hd] at hdis ⊢
        have hnc : ∀ buf f as, processInteractive c r rest fc ≠ .needAccum buf f as := by
          intro buf f as hcr
          exact hdis buf f (Action.shell_describe describeShellRoleName fc :: as)
            (by rw [hcr]; rfl)
        rw [IH fc hnc, consInter_seqInter]
      · simp only [if_neg hd] at hdis ⊢
        have hnc : ∀ buf f as, processInteractive c r rest (c p) ≠ .needAccum buf f as := by
          intro buf f as hcr
          exact hdis buf f (Action.forward p (c p) :: as) (by rw [hcr]; rfl)
        rw [IH (c p) hnc, consInter_seqInter]

/-- Composition of the interactive phase: supplying more lines after a
consumed block equals sequencing, provided the first block does not end
blocked inside multi-line accumulation. -/
theorem processInteractive_append (c : String → String) (r : String) :
    ∀ (xs : List String) (fc : String) (ys : List String),
      (∀ buf f as, processInteractive c r xs fc ≠ .needAccum buf f as) →
      processInteractive c r (xs ++ ys) fc
        = seqInter (processInteractive c r xs fc) (fun f => processInteractive c r ys f) := by
  suffices H : ∀ (n : Nat) (xs : List String) (fc : String) (ys : List String),
      xs.length ≤ n → (∀ buf f as, processInteractive c r xs fc ≠ .needAccum buf f as) →
      processInteractive c r (xs ++ ys) fc
        = seqInter (processInteractive c r xs fc) (fun f => processInteractive c r ys f) by
    exact fun xs fc ys h => H xs.length xs fc ys le_rfl h
  intro n
  induction n with
  | zero =>
    intro xs fc ys hlen _
    have hxs : xs = [] := List.eq_nil_of_length_eq_zero (Nat.le_zero.mp hlen)
    subst hxs
    rw [List.nil_append, processInteractive_nil, seqInter, prependInter_nil]
  | succ n ihn =>
    intro xs fc ys hlen hnc
    match xs with
    | [] => rw [List.nil_append, processInteractive_nil, seqInter, prependInter_nil]
    | l :: rest =>
      have hrest : rest.length ≤ n := Nat.lt_succ_iff.mp (by
        simpa using Nat.lt_of_lt_of_le (Nat.lt_succ_self rest.length)
          (by simpa using hlen))
      by_cases hl : l = sentinel
      · subst hl
        cases hml : get_multiline_input rest "" with
        | exhausted buf =>
          exact absurd (processInteractive_sentinel_exhausted c r rest buf fc hml)
            (fun h => hnc buf fc [] h)
        | closed p rest' =>
          have hml2 := get_multiline_input_append_closed rest "" p rest' ys hml
          have hcons : (sentinel :: rest) ++ ys = sentinel :: (rest ++ ys) := rfl
          rw [hcons,
            processInteractive_sentinel_closed c r (rest ++ ys) p (rest' ++ ys) fc hml2,
            processInteractive_sentinel_closed c r rest p rest' fc hml]
          have hlt : rest'.length ≤ n :=
            Nat.le_of_lt (Nat.lt_of_lt_of_le
              (get_multiline_input_closed_length rest "" p rest' hml) hrest)
          refine dispatchInter_append c r ys p rest' fc
            (fun fcx hncx => ihn rest' fcx ys hlt hncx) ?_
          intro buf f as hcr
          exact hnc buf f as
            (by rw [processInteractive_sentinel_closed c r rest p rest' fc hml]; exact hcr)
      · have hcons : (l :: rest) ++ ys = l :: (rest ++ ys) := rfl
        rw [hcons, processInteractive_cons c r l (rest ++ ys) fc hl,
          processInteractive_cons c r l rest fc hl]
        refine dispatchInter_append c r ys l rest fc
          (fun fcx hncx => ihn rest fcx ys hrest hncx) ?_
        intro buf f as hcr
        exact hnc buf f as (by rw [processInteractive_cons c r l rest fc hl]; exact hcr)

/- Claim theorems. -/

/-- C2: feeding the pre-supplied block consisting of an opening sentinel
line, the lines a and b, and a closing sentinel line makes the REPL
dispatch loop emit exactly one forwarded prompt, whose content is
"a\nb\n" (sentinel lines excluded, each accumulated line contributing a
trailing newline), for every completion client and active role. -/
theorem c2_multiline_block_forwards_once (c : String → String) (r : String) :
    repl c r [sentinel, "a", "b", sentinel] [] =
      .needLine (c "a\nb\n") [.forward "a\nb\n" (c "a\nb\n")] := by
  have hml : get_multiline_input ["a", "b", sentinel] "" = .closed "a\nb\n" [] := by
    decide
  have h1 : processInit c r [sentinel, "a", "b", sentinel] "" =
      dispatchInit c r "a\nb\n" [] "" :=
    processInit_sentinel_closed c r ["a", "b", sentinel] "a\nb\n" [] "" hml
  have h2 : dispatchInit c r "a\nb\n" [] "" =
      consInit (.forward "a\nb\n" (c "a\nb\n")) (processInit c r [] (c "a\nb\n")) := by
    unfold dispatchInit
    rw [if_neg (by decide), if_neg (fun h => absurd h.2 (by decide)),
      if_neg (fun h => absurd h.2 (by decide))]
  unfold repl
  rw [h1, h2, processInit_nil]
  simp [consInit, processInteractive_nil]

/-- C5: a REPL line that is the literal e or the literal d is not
dispatched as shell-execute or shell-describe when the active role is
not the shell-command-generator role; it is treated exactly as a forward
line, sent verbatim as the prompt, with LastCompletion updated to the
returned completion — in the init block and in the interactive loop. -/
theorem c5_e_d_forward_when_not_shell_role (c : String → String) (r : String)
    (fc : String) (rest : List String) (hr : r ≠ shellRoleName) :
    (processInit c r ("e" :: rest) fc
        = consInit (.forward "e" (c "e")) (processInit c r rest (c "e"))) ∧
    (processInit c r ("d" :: rest) fc
        = consInit (.forward "d" (c "d")) (processInit c r rest (c "d"))) ∧
    (processInteractive c r ("e" :: rest) fc
        = consInter (.forward "e" (c "e")) (processInteractive c r rest (c "e"))) ∧
    (processInteractive c r ("d" :: rest) fc
        = consInter (.forward "d" (c "d")) (processInteractive c r rest (c "d"))) := by
  refine ⟨?_, ?_, ?_, ?_⟩
  · rw [processInit_cons c r "e" rest fc (by decide)]
    unfold dispatchInit
    rw [if_neg (by decide), if_neg (fun h => hr h.1), if_neg (fun h => hr h.1)]
  · rw [processInit_cons c r "d" rest fc (by decide)]
    unfold dispatchInit
    rw [if_neg (by decide), if_neg (fun h => hr h.1), if_neg (fun h => hr h.1)]
  · rw [processInteractive_cons c r "e" rest fc (by decide)]
    unfold dispatchInter
    rw [if_neg (by decide), if_neg (fun h => hr h.1), if_neg (fun h => hr h.1)]
  · rw [processInteractive_cons c r "d" rest fc (by decide)]
    unfold dispatchInter
    rw [if_neg (by decide), if_neg (fun h => hr h.1), if_neg (fun h => hr h.1)]

/-- Witness for C5 at a concrete input: the default role name differs
from the shell role, and the line e is forwarded verbatim. -/
theorem c5_e_d_forward_when_not_shell_role_witness :
    processInit (fun s => "ans:" ++ s) "ShellGPT" ["e"] ""
      = consInit (.forward "e" "ans:e")
          (processInit (fun s => "ans:" ++ s) "ShellGPT" [] "ans:e") :=
  (c5_e_d_forward_when_not_shell_role (fun s => "ans:" ++ s) "ShellGPT" "" []
    (by decide)).1

/-- C7: under the shell-command role, dispatching the shell-describe
line d issues a one-shot completion whose prompt is the current
LastCompletion, under the describe-shell role, and the rest of the loop
continues with LastCompletion unchanged — inserting a d line at any
cleanly-processed point only adds that one describe action, in the init
block and in the interactive loop. -/
theorem c7_describe_keeps_last_completion (c : String → String) :
    (∀ (pre rest : List String) (fc0 fc : String) (as : List Action),
      processInit c shellRoleName pre fc0 = .ok fc as →
      processInit c shellRoleName (pre ++ "d" :: rest) fc0
        = prependInit as (consInit (.shell_describe describeShellRoleName fc)
            (processInit c shellRoleName rest fc))) ∧
    (∀ (pre rest : List String) (fc0 fc : String) (as : List Action),
      processInteractive c shellRoleName pre fc0 = .needLine fc as →
      processInteractive c shellRoleName (pre ++ "d" :: rest) fc0
        = prependInter as (consInter (.shell_describe describeShellRoleName fc)
            (processInteractive c shellRoleName rest fc))) := by
  constructor
  · intro pre rest fc0 fc as h
    have hnc : ∀ as', processInit c shellRoleName pre fc0 ≠ .crashed as' := by
      intro as' hcr; rw [h] at hcr; cases hcr
    have happ := processInit_append c shellRoleName pre fc0 ("d" :: rest) hnc
    rw [h] at happ
    rw [happ]
    have hd : processInit c shellRoleName ("d" :: rest) fc
        = consInit (.shell_describe describeShellRoleName fc)
            (processInit c shellRoleName rest fc) := by
      rw [processInit_cons c shellRoleName "d" rest fc (by decide)]
      unfold dispatchInit
      rw [if_neg (by decide), if_neg (fun h => absurd h.2 (by decide)),
        if_pos ⟨rfl, rfl⟩]
    rw [seqInit, hd]
  · intro pre rest fc0 fc as h
    have hnc : ∀ buf f as', processInteractive c shellRoleName pre fc0
        ≠ .needAccum buf f as' := by
      intro buf f as' hcr; rw [h] at hcr; cases hcr
    have happ := processInteractive_append c shellRoleName pre fc0 ("d" :: rest) hnc
    rw [h] at happ
    rw [happ]
    have hd : processInteractive c shellRoleName ("d" :: rest) fc
        = consInter (.shell_describe describeShellRoleName fc)
            (processInteractive c shellRoleName rest fc) := by
      rw [processInteractive_cons c shellRoleName "d" rest fc (by decide)]
      unfold dispatchInter
      rw [if_neg (by decide), if_neg (fun h => absurd h.2 (by decide)),
        if_pos ⟨rfl, rfl⟩]
    rw [seqInter, hd]

/-- Witness for C7 at a concrete input: after forwarding the line x the
describe line issues the one-shot with the stored completion and leaves
it in place for the remaining empty block. -/
theorem c7_describe_keeps_last_completion_witness :
    processInit (fun s => "ans:" ++ s) shellRoleName ["x"] "" = .ok "ans:x" [.forward "x" "ans:x"] ∧
    processInit (fun s => "ans:" ++ s) shellRoleName (["x"] ++ "d" :: []) ""
      = prependInit [.forward "x" "ans:x"]
          (consInit (.shell_describe describeShellRoleName "ans:x")
            (processInit (fun s => "ans:" ++ s) shellRoleName [] "ans:x")) := by
  have h : processInit (fun s => "ans:" ++ s) shellRoleName ["x"] ""
      = .ok "ans:x" [.forward "x" "ans:x"] := by
    rw [processInit_cons _ _ "x" [] "" (by decide)]
    unfold dispatchInit
    rw [if_neg (by decide), if_neg (fun h => absurd h.2 (by decide)),
      if_neg (fun h => absurd h.2 (by decide)), processInit_nil]
    decide
  exact ⟨h, (c7_describe_keeps_last_completion (fun s => "ans:" ++ s)).1
    ["x"] [] "" "ans:x" [.forward "x" "ans:x"] h⟩

/-- C9: a closed multi-line block is always dispatched as a forward
action, never as exit-command, shell-execute or shell-describe: the
accumulated buffer is empty or ends with a newline, so it cannot equal
the literals exit(), e or d, and both halves of the loop forward it. -/
theorem c9_multiline_always_forwards (c : String → String) (r : String)
    (ls : List String) (p : String) (rest : List String) (fc : String)
    (h : get_multiline_input ls "" = .closed p rest) :
    (p = "" ∨ ∃ q, p = q ++ "\n") ∧
    (processInit c r (sentinel :: ls) fc
        = consInit (.forward p (c p)) (processInit c r rest (c p))) ∧
    (processInteractive c r (sentinel :: ls) fc
        = consInter (.forward p (c p)) (processInteractive c r rest (c p))) := by
  have hshape := get_multiline_input_closed_shape ls "" p rest h
  have hexit : p ≠ "exit()" := by
    rcases hshape with hp | ⟨q, hq⟩
    · rw [hp]; decide
    · rw [hq]; exact append_newline_ne q "exit()" (by decide)
  have he : p ≠ "e" := by
    rcases hshape with hp | ⟨q, hq⟩
    · rw [hp]; decide
    · rw [hq]; exact append_newline_ne q "e" (by decide)
  have hd : p ≠ "d" := by
    rcases hshape with hp | ⟨q, hq⟩
    · rw [hp]; decide
    · rw [hq]; exact append_newline_ne q "d" (by decide)
  refine ⟨hshape, ?_, ?_⟩
  · rw [processInit_sentinel_closed c r ls p rest fc h]
    unfold dispatchInit
    rw [if_neg hexit, if_neg (fun hc => he hc.2), if_neg (fun hc => hd hc.2)]
  · rw [processInteractive_sentinel_closed c r ls p rest fc h]
    unfold dispatchInter
    rw [if_neg hexit, if_neg (fun hc => he hc.2), if_neg (fun hc => hd hc.2)]

/-- Witness for C9 at a concrete input: the block containing the single
line exit() closes to the buffer with a trailing newline and is
forwarded, not dispatched as the exit command. -/
theorem c9_multiline_always_forwards_witness :
    ("exit()\n" = "" ∨ ∃ q, "exit()\n" = q ++ "\n") ∧
    processInit (fun s => "ans:" ++ s) shellRoleName [sentinel, "exit()", sentinel] ""
      = consInit (.forward "exit()\n" "ans:exit()\n")
          (processInit (fun s => "ans:" ++ s) shellRoleName [] "ans:exit()\n") := by
  have h := c9_multiline_always_forwards (fun s => "ans:" ++ s) shellRoleName
    ["exit()", sentinel] "exit()\n" [] "" (by decide)
  exact ⟨h.1, h.2.1⟩

/-- C6: reading the literal line exit() at a dispatch position
terminates the REPL loop immediately and successfully, whether it
stands in the pre-supplied block or in the interactive stream, and no
later line of either source is dispatched: the trace holds only the
actions from before the exit line. -/
theorem c6_exit_terminates (c : String → String) (r : String) :
    (∀ (pre post inter : List String) (fc : String) (as : List Action),
      processInit c r pre "" = .ok fc as →
      repl c r (pre ++ "exit()" :: post) inter = .exited as) ∧
    (∀ (initL pre post : List String) (fc0 fc : String) (bs as : List Action),
      processInit c r initL "" = .ok fc0 bs →
      processInteractive c r pre fc0 = .needLine fc as →
      repl c r initL (pre ++ "exit()" :: post) = .exited (bs ++ as)) := by
  constructor
  · intro pre post inter fc as h
    have hnc : ∀ as', processInit c r pre "" ≠ .crashed as' := by
      intro as' hcr; rw [h] at hcr; cases hcr
    have happ := processInit_append c r pre "" ("exit()" :: post) hnc
    rw [h] at happ
    have hexit : processInit c r ("exit()" :: post) fc = .exited [] := by
      rw [processInit_cons c r "exit()" post fc (by decide)]
      unfold dispatchInit
      rw [if_pos rfl]
    rw [seqInit, hexit] at happ
    unfold repl
    rw [happ]
    simp [prependInit]
  · intro initL pre post fc0 fc bs as h hi
    have hnc : ∀ buf f as', processInteractive c r pre fc0 ≠ .needAccum buf f as' := by
      intro buf f as' hcr; rw [hi] at hcr; cases hcr
    have happ := processInteractive_append c r pre fc0 ("exit()" :: post) hnc
    rw [hi] at happ
    have hexit : processInteractive c r ("exit()" :: post) fc = .exited [] := by
      rw [processInteractive_cons c r "exit()" post fc (by decide)]
      unfold dispatchInter
      rw [if_pos rfl]
    rw [seqInter, hexit] at happ
    unfold repl
    rw [h]
    dsimp only
    rw [happ]
    simp [prependInter]

/-- Witness for C6 at concrete inputs: exit() placed after one init line
stops the loop before the interactive lines, and exit() placed after one
interactive line stops it after the two earlier forwards. -/
theorem c6_exit_terminates_witness :
    repl (fun s => "ans:" ++ s) "ShellGPT" (["x"] ++ "exit()" :: ["y"]) ["z"]
        = .exited [.forward "x" "ans:x"] ∧
    repl (fun s => "ans:" ++ s) "ShellGPT" ["x"] (["z"] ++ "exit()" :: ["w"])
        = .exited ([.forward "x" "ans:x"] ++ [.forward "z" "ans:z"]) := by
  have hinit : processInit (fun s => "ans:" ++ s) "ShellGPT" ["x"] ""
      = .ok "ans:x" [.forward "x" "ans:x"] := by
    rw [processInit_cons _ _ "x" [] "" (by decide)]
    unfold dispatchInit
    rw [if_neg (by decide), if_neg (fun h => absurd h.1 (by decide)),
      if_neg (fun h => absurd h.1 (by decide)), processInit_nil]
    decide
  have hinter : processInteractive (fun s => "ans:" ++ s) "ShellGPT" ["z"] "ans:x"
      = .needLine "ans:z" [.forward "z" "ans:z"] := by
    rw [processInteractive_cons _ _ "z" [] "ans:x" (by decide)]
    unfold dispatchInter
    rw [if_neg (by decide), if_neg (fun h => absurd h.1 (by decide)),
      if_neg (fun h => absurd h.1 (by decide)), processInteractive_nil]
    decide
  exact ⟨(c6_exit_terminates (fun s => "ans:" ++ s) "ShellGPT").1
      ["x"] ["y"] ["z"] "ans:x" [.forward "x" "ans:x"] hinit,
    (c6_exit_terminates (fun s => "ans:" ++ s) "ShellGPT").2
      ["x"] ["z"] ["w"] "ans:x" "ans:z" [.forward "x" "ans:x"]
      [.forward "z" "ans:z"] hinit hinter⟩

/-- C1, counterexample: an init block that opens a sentinel and ends
without closing it does not continue accumulating from the interactive
source — processing fails (IndexError in
_testmode_get_multiline_input), the trace is empty, and the supplied
interactive lines (which would close the block) are never consumed. -/
theorem c1_counterexample :
    repl (fun s => s) "ShellGPT" [sentinel, "a"] ["b", sentinel] = .crashed [] := by
  unfold repl
  rw [processInit_sentinel_exhausted (fun s => s) "ShellGPT" ["a"] "a\n" "" (by decide)]

/-- C1, amended: whenever a sentinel line opened inside the pre-supplied
block is not closed before the block ends, the REPL dispatch loop fails
with an index-out-of-range error instead of carrying accumulation into
the interactive source; the trace holds only the actions from before the
unclosed sentinel and no interactive line is consumed. -/
theorem c1_unclosed_sentinel_crashes (c : String → String) (r : String)
    (pre t inter : List String) (fc : String) (as : List Action)
    (h : processInit c r pre "" = .ok fc as) (hmem : sentinel ∉ t) :
    repl c r (pre ++ sentinel :: t) inter = .crashed as := by
  have hnc : ∀ as', processInit c r pre "" ≠ .crashed as' := by
    intro as' hcr; rw [h] at hcr; cases hcr
  have happ := processInit_append c r pre "" (sentinel :: t) hnc
  rw [h] at happ
  obtain ⟨buf, hbuf⟩ := get_multiline_input_no_sentinel t "" hmem
  rw [seqInit, processInit_sentinel_exhausted c r t buf fc hbuf] at happ
  unfold repl
  rw [happ]
  simp [prependInit]

/-- Witness for C1 at a concrete input: after one forwarded init line
the unclosed sentinel crashes the loop with only that forward in the
trace. -/
theorem c1_unclosed_sentinel_crashes_witness :
    repl (fun s => "ans:" ++ s) "ShellGPT" (["x"] ++ sentinel :: ["a"]) ["b"]
      = .crashed [.forward "x" "ans:x"] := by
  have hinit : processInit (fun s => "ans:" ++ s) "ShellGPT" ["x"] ""
      = .ok "ans:x" [.forward "x" "ans:x"] := by
    rw [processInit_cons _ _ "x" [] "" (by decide)]
    unfold dispatchInit
    rw [if_neg (by decide), if_neg (fun h => absurd h.1 (by decide)),
      if_neg (fun h => absurd h.1 (by decide)), processInit_nil]
    decide
  exact c1_unclosed_sentinel_crashes (fun s => "ans:" ++ s) "ShellGPT"
    ["x"] ["a"] ["b"] "ans:x" [.forward "x" "ans:x"] hinit (by decide)

/-- Result length of the batch fold, for any starting accumulator. -/
theorem batch_foldl_length (handler : String → Except String String) :
    ∀ (qs : List String) (acc : List BatchResult),
      (qs.foldl (fun results q =>
        match handler q with
        | .ok answer => add_result results q answer none
        | .error e => add_result results q "" (some e)) acc).length
      = acc.length + qs.length := by
  intro qs
  induction qs with
  | nil => intro acc; simp
  | cons q qs ih =>
    intro acc
    simp only [List.foldl_cons]
    rw [ih]
    cases handler q <;> simp [add_result] <;> omega

/-- C3: batch processing catches a completion failure per question and
records it as that question's error without aborting the remaining
questions — the result list always has one record per question, and for
three questions where the second raises (with a non-empty message, as a
surfaced completion error carries) the results are the two answers plus
the one recorded error, exactly one error field is non-empty, and the
summary reports total=3, success=2, failed=1. -/
theorem c3_batch_catches_per_question (handler : String → Except String String) :
    (∀ qs : List String, (process_batch_questions handler qs).length = qs.length) ∧
    (∀ q1 q2 q3 a1 m a3 : String,
      handler q1 = .ok a1 → handler q2 = .error m → handler q3 = .ok a3 → m ≠ "" →
      process_batch_questions handler [q1, q2, q3]
          = [⟨q1, a1, ""⟩, ⟨q2, "", m⟩, ⟨q3, a3, ""⟩] ∧
      countFailed (process_batch_questions handler [q1, q2, q3]) = 1 ∧
      print_summary (process_batch_questions handler [q1, q2, q3]) = (3, 2, 1)) := by
  constructor
  · intro qs
    unfold process_batch_questions
    rw [batch_foldl_length handler qs []]
    simp
  · intro q1 q2 q3 a1 m a3 h1 h2 h3 hm
    have hres : process_batch_questions handler [q1, q2, q3]
        = [⟨q1, a1, ""⟩, ⟨q2, "", m⟩, ⟨q3, a3, ""⟩] := by
      simp [process_batch_questions, h1, h2, h3, add_result]
    refine ⟨hres, ?_, ?_⟩
    · rw [hres]
      simp [countFailed, hm]
    · rw [hres]
      simp [print_summary, countSuccess, countFailed, hm]

/-- Witness for C3 at a concrete input: three questions whose second
raises with message boom. -/
theorem c3_batch_catches_per_question_witness :
    process_batch_questions
        (fun q => if q = "b" then .error "boom" else .ok "ans") ["a", "b", "c"]
      = [⟨"a", "ans", ""⟩, ⟨"b", "", "boom"⟩, ⟨"c", "ans", ""⟩] ∧
    print_summary (process_batch_questions
        (fun q => if q = "b" then .error "boom" else .ok "ans") ["a", "b", "c"])
      = (3, 2, 1) := by
  have H := (c3_batch_catches_per_question
      (fun q => if q = "b" then .error "boom" else .ok "ans")).2
    "a" "b" "c" "ans" "boom" "ans" rfl rfl rfl (by decide)
  exact ⟨H.1, H.2.2⟩

/-- C10: when the handler raises an exception whose string
representation is empty, the batch processor records the question with
an empty error field and every counting site — the printed summary and
the headers of the txt, json and markdown save formats — counts it as a
success and not as a failure, although no answer was produced. -/
theorem c10_empty_exception_counted_success (handler : String → Except String String)
    (q : String) (h : handler q = .error "") :
    process_batch_questions handler [q] = [⟨q, "", ""⟩] ∧
    (∀ rs : List BatchResult,
      countSuccess (rs ++ [⟨q, "", ""⟩]) = countSuccess rs + 1 ∧
      countFailed (rs ++ [⟨q, "", ""⟩]) = countFailed rs) ∧
    print_summary (process_batch_questions handler [q]) = (1, 1, 0) ∧
    save_as_txt_counts (process_batch_questions handler [q]) = (1, 1, 0) ∧
    save_as_json_counts (process_batch_questions handler [q]) = (1, 1, 0) ∧
    save_as_markdown_counts (process_batch_questions handler [q]) = (1, 1, 0) := by
  have hres : process_batch_questions handler [q] = [⟨q, "", ""⟩] := by
    simp [process_batch_questions, h, add_result]
  refine ⟨hres, ?_, ?_, ?_, ?_, ?_⟩
  · intro rs
    constructor
    · simp [countSuccess, List.filter_append]
    · simp [countFailed, List.filter_append]
  · rw [hres]; simp [print_summary, countSuccess, countFailed]
  · rw [hres]; simp [save_as_txt_counts, countSuccess, countFailed]
  · rw [hres]; simp [save_as_json_counts, countSuccess, countFailed]
  · rw [hres]; simp [save_as_markdown_counts, countSuccess, countFailed]

/-- Witness for C10 at a concrete input: a handler that always raises
with an empty message. -/
theorem c10_empty_exception_counted_success_witness :
    process_batch_questions (fun _ => .error "") ["a"] = [⟨"a", "", ""⟩] ∧
    print_summary (process_batch_questions (fun _ => .error "") ["a"]) = (1, 1, 0) := by
  have H := c10_empty_exception_counted_success (fun _ => .error "") "a" rfl
  exact ⟨H.1, H.2.2.1⟩

/-- Characterization of the txt reader as a map-and-filter over the
lines. -/
theorem read_txt_eq_filter :
    ∀ lines : List String,
      read_txt lines = (lines.map String.trim).filter
        (fun l => !(l == "") && !(l.startsWith "#")) := by
  intro lines
  induction lines with
  | nil => rfl
  | cons l ls ih =>
    by_cases h1 : l.trim = ""
    · simp [read_txt, List.filter_cons, h1, ih]
    · by_cases h2 : l.trim.startsWith "#"
      · simp [read_txt, List.filter_cons, h1, h2, ih]
      · simp [read_txt, List.filter_cons, h1, h2, ih]

/-- Characterization of the csv row loop as a filterMap over the rows. -/
theorem read_csv_rows_eq_filterMap :
    ∀ rs : List (List String),
      read_csv_rows rs = rs.filterMap
        (fun row => row.head?.bind
          (fun c0 => if c0.trim = "" then none else some c0.trim)) := by
  intro rs
  induction rs with
  | nil => rfl
  | cons row rs ih =>
    cases row with
    | nil => simp [read_csv_rows, List.filterMap_cons, ih]
    | cons c cs =>
      by_cases hc : c.trim = ""
      · simp [read_csv_rows, List.filterMap_cons, hc, ih]
      · simp [read_csv_rows, List.filterMap_cons, hc, ih]

/-- C8, counterexample: a .json file whose top level is an object with a
"questions" key whose value is the number 5 — a schema mismatch — is
accepted by the reader (the raw value is returned) instead of failing
with the malformed-input error the claim requires. -/
theorem c8_reader_counterexample :
    read_questions_from_file (.json (.obj [("questions", .num 5)])) = .ok (.num 5) ∧
    ∀ e, read_questions_from_file (.json (.obj [("questions", .num 5)])) ≠ .error e := by
  have h : read_questions_from_file (.json (.obj [("questions", .num 5)]))
      = .ok (.num 5) := rfl
  refine ⟨h, fun e hcontra => ?_⟩
  rw [h] at hcontra
  cases hcontra

/-- C8, amended: the reader accepts .txt files (one question per
non-empty, non-comment trimmed line), .csv files (trimmed first column,
header row skipped, rows with an empty first column dropped), and .json
files shaped as a list of strings or a list of records with a question
key; an object containing a "questions" key has that value returned
without validation (no error even when it does not match the expected
list shape); every other JSON shape fails with the generic
malformed-input error wrapping the JSON format message. -/
theorem c8_reader_behaviour :
    (∀ lines : List String,
      read_questions_from_file (.txt lines)
        = .ok (.arr (((lines.map String.trim).filter
            (fun l => !(l == "") && !(l.startsWith "#"))).map JsonVal.str))) ∧
    (∀ rows : List (List String),
      read_questions_from_file (.csv rows)
        = .ok (.arr (((rows.drop 1).filterMap
            (fun row => row.head?.bind
              (fun c0 => if c0.trim = "" then none else some c0.trim))).map
            JsonVal.str))) ∧
    (∀ (fields : List (String × JsonVal)) (v : JsonVal),
      lookupField fields "questions" = some v →
      read_questions_from_file (.json (.obj fields)) = .ok v) ∧
    (∀ items : List JsonVal, items.all JsonVal.isStr = true →
      read_questions_from_file (.json (.arr items)) = .ok (.arr items)) ∧
    (∀ items : List JsonVal, items.all JsonVal.isStr = false →
      items.all JsonVal.hasQuestionKey = true →
      read_questions_from_file (.json (.arr items))
        = .ok (.arr (items.map JsonVal.questionField))) ∧
    (∀ fields : List (String × JsonVal), lookupField fields "questions" = none →
      read_questions_from_file (.json (.obj fields))
        = .error (readFileError jsonFormatErrorMsg)) ∧
    (∀ items : List JsonVal, items.all JsonVal.isStr = false →
      items.all JsonVal.hasQuestionKey = false →
      read_questions_from_file (.json (.arr items))
        = .error (readFileError jsonFormatErrorMsg)) ∧
    (∀ s, read_questions_from_file (.json (.str s))
        = .error (readFileError jsonFormatErrorMsg)) ∧
    (∀ n, read_questions_from_file (.json (.num n))
        = .error (readFileError jsonFormatErrorMsg)) := by
  refine ⟨?_, ?_, ?_, ?_, ?_, ?_, ?_, ?_, ?_⟩
  · intro lines
    simp [read_questions_from_file, read_txt_eq_filter]
  · intro rows
    simp [read_questions_from_file, read_csv, read_csv_rows_eq_filterMap]
  · intro fields v h
    simp [read_questions_from_file, read_json, h]
  · intro items h
    simp [read_questions_from_file, read_json, h]
  · intro items h1 h2
    simp [read_questions_from_file, read_json, h1, h2]
  · intro fields h
    simp [read_questions_from_file, read_json, h]
  · intro items h1 h2
    simp [read_questions_from_file, read_json, h1, h2]
  · intro s; rfl
  · intro n; rfl

/-- Witness for C8 at concrete inputs: a txt file with blank and comment
lines, a csv file with a header, a dict with a questions list, a string
list, a record list, and a mismatching shape. -/
theorem c8_reader_behaviour_witness :
    read_questions_from_file (.txt [" q1 ", "", "# note", "q2"])
      = .ok (.arr ((([" q1 ", "", "# note", "q2"].map String.trim).filter
          (fun l => !(l == "") && !(l.startsWith "#"))).map JsonVal.str)) ∧
    read_questions_from_file (.json (.obj [("questions", .arr [.str "q"])]))
      = .ok (.arr [.str "q"]) ∧
    read_questions_from_file (.json (.arr [.str "a", .str "b"]))
      = .ok (.arr [.str "a", .str "b"]) ∧
    read_questions_from_file (.json (.arr [.obj [("question", .str "a")]]))
      = .ok (.arr ([.obj [("question", .str "a")]].map JsonVal.questionField)) ∧
    read_questions_from_file (.json (.num 3))
      = .error (readFileError jsonFormatErrorMsg) := by
  have H := c8_reader_behaviour
  exact ⟨H.1 [" q1 ", "", "# note", "q2"],
    H.2.2.1 [("questions", .arr [.str "q"])] (.arr [.str "q"]) rfl,
    H.2.2.2.1 [.str "a", .str "b"] rfl,
    H.2.2.2.2.1 [.obj [("question", .str "a")]] rfl rfl,
    H.2.2.2.2.2.2.2.2 3⟩

/-- C4, counterexample: with batch mode selected (and the batch file
present) together with both the shell and code mode flags, main reports
no usage error and runs the batch dispatch, issuing completion
requests — the multiple-mode conflict check is skipped on the batch
path. -/
theorem c4_counterexample :
    modeCount { shell := true, code := true, batch := true, batch_file_exists := true } = 2 ∧
    main { shell := true, code := true, batch := true, batch_file_exists := true } = .batchRun ∧
    isUsageError (main { shell := true, code := true, batch := true, batch_file_exists := true }) = false := by
  decide

/-- C4, amended: outside batch mode, selecting more than one of the
shell, describe-shell and code modes reports the multiple-mode usage
error, and selecting chat and repl together reports a usage error, in
both cases exiting without dispatching any completion; on the batch path
(with an existing batch file) only the chat-or-repl conflict is checked
— it reports the batch-conflict usage error — while multiple mode flags
are not rejected. -/
theorem c4_conflicts_usage_error :
    (∀ f : Flags, f.batch = false → modeCount f > 1 →
      main f = .usageError modesConflictMsg) ∧
    (∀ f : Flags, f.batch = false → f.chat = true → f.repl = true →
      isUsageError (main f) = true) ∧
    (∀ f : Flags, f.batch = true → f.batch_file_exists = true →
      (f.chat || f.repl) = true →
      main f = .usageError batchConflictMsg) := by
  refine ⟨?_, ?_, ?_⟩
  · intro f h1 h2
    simp [main, h1, h2]
  · intro f h1 h2 h3
    by_cases hm : modeCount f > 1
    · simp [main, h1, hm, isUsageError]
    · simp [main, h1, hm, h2, h3, isUsageError]
  · intro f h1 h2 h3
    rcases Bool.or_eq_true_iff.mp h3 with hc | hr
    · simp [main, h1, h2, hc]
    · simp [main, h1, h2, hr]

/-- Witness for C4 at concrete inputs: shell with code (no batch) hits
the multiple-mode error, chat with repl (no batch) is a usage error, and
batch with chat hits the batch-conflict error. -/
theorem c4_conflicts_usage_error_witness :
    main { shell := true, code := true } = .usageError modesConflictMsg ∧
    isUsageError (main { chat := true, repl := true }) = true ∧
    main { batch := true, batch_file_exists := true, chat := true }
      = .usageError batchConflictMsg := by
  have H := c4_conflicts_usage_error
  exact ⟨H.1 { shell := true, code := true } rfl (by decide),
    H.2.1 { chat := true, repl := true } rfl rfl rfl,
    H.2.2 { batch := true, batch_file_exists := true, chat := true } rfl rfl (by decide)⟩

end SgptSpec
